import Mathlib

/-!
Shallow embedding of `i2c.go` (package i2c, register-level access layer
over a Linux I2C bus).

The Go code composes three layers:
  * a device ("Byte Transport"): the actual wire-level reads/writes, here an
    abstract `Dev σ` supplied by each theorem;
  * an `os.File` handle (`rc`): tracks the closed flag; operations on a
    closed file fail with `ErrClosed` without touching the device;
  * the `I2C` struct with its register read/write methods, translated
    function by function from the source.

Machine integers: `byte`/`uint16` become `Nat` (uint16 values carry the
`< 65536` bound as a hypothesis where needed; wrapping operations carry an
explicit `% 65536`), `int16` becomes `Int` reduced into `[-32768, 32767]` by
`wrap16` at every operation that the Go `int16` type wraps.  Go's bitwise
ops on these widths are translated arithmetically: `& 0xFF` is `% 256`,
`(x & 0xFF00) >> 8` on a `uint16` pattern is `/ 256`, `byte(x)` is `% 256`,
`<< 8` is `* 256` (wrapped), and `>> 8` is logical `/ 256` on `uint16` but
an arithmetic (sign-extending) shift `Int.fdiv · 256` on `int16`.

A trace of device-level events (`Ev`) records every actual transport call
and every sleep, so "the read primitive is never invoked", "exactly one
transport write" and "no delay" are statable.
-/

/-- Errors visible to the Go caller: `os.ErrClosed` from a closed file
handle, or an arbitrary device-level I/O error (indexed by a code). -/
inductive Err where
  | errClosed : Err
  | devErr : Nat → Err
deriving DecidableEq, Repr

/-- Observable device-level events: an actual transport write with its
payload, an actual transport read with its requested size, and a
`time.Sleep` with its duration. -/
inductive Ev where
  | wr : List Nat → Ev
  | rd : Nat → Ev
  | sleep : Nat → Ev
deriving DecidableEq, Repr

/-- The Byte Transport (the device behind the file descriptor): `write`
returns an accepted-byte count or an error; `read n` returns a reported
count, the bytes it put into the caller's buffer (a prefix of length ≤ n is
used), and an optional error.  `σ` is the device's private state. -/
structure Dev (σ : Type) where
  write : σ → List Nat → σ × Nat × Option Err
  read : σ → Nat → σ × Nat × List Nat × Option Err

/-- The `os.File` handle state: device state, the closed flag, and the
trace of device-level events so far. -/
structure FileSt (σ : Type) where
  dev : σ
  closed : Bool
  calls : List Ev

/-- `os.File.Write` semantics: on a closed handle fail with `ErrClosed`
without touching the device; otherwise perform the device write and record
it in the trace. -/
def fwrite {σ : Type} (d : Dev σ) (f : FileSt σ) (buf : List Nat) :
    FileSt σ × Nat × Option Err :=
  if f.closed then (f, 0, some Err.errClosed)
  else
    match d.write f.dev buf with
    | (dv, n, e) => ({ f with dev := dv, calls := f.calls ++ [Ev.wr buf] }, n, e)

/-- `os.File.Read` semantics: on a closed handle fail with `ErrClosed`
without touching the device; otherwise perform the device read and record
it in the trace. -/
def fread {σ : Type} (d : Dev σ) (f : FileSt σ) (n : Nat) :
    FileSt σ × Nat × List Nat × Option Err :=
  if f.closed then (f, 0, [], some Err.errClosed)
  else
    match d.read f.dev n with
    | (dv, c, bs, e) => ({ f with dev := dv, calls := f.calls ++ [Ev.rd n] }, c, bs, e)

/-- `os.File.Close` semantics: the first close succeeds and sets the flag;
a second close fails with `ErrClosed`. -/
def fclose {σ : Type} (f : FileSt σ) : FileSt σ × Option Err :=
  if f.closed then (f, some Err.errClosed)
  else ({ f with closed := true }, none)

/-- A buffer of `n` bytes after a read that filled it with `bs`: Go
allocates the buffer zeroed (`make([]byte, n)`) and the read fills a
prefix; entries are bytes, hence the `% 256`. -/
def fillBuf (n : Nat) (bs : List Nat) : List Nat :=
  (bs.map (· % 256)).take n ++ List.replicate (n - ((bs.map (· % 256)).take n).length) 0

/-- Reduce an `Int` into the `int16` range `[-32768, 32767]`, two's
complement: the value Go's `int16` arithmetic produces after wrapping. -/
def wrap16 (z : Int) : Int :=
  (z + 32768) % 65536 - 32768

/-- Spec-side interpretation: the signed 16-bit two's-complement reading of
a natural-number bit pattern. -/
def s16 (n : Nat) : Int :=
  if n % 65536 < 32768 then (n % 65536 : Int) else (n % 65536 : Int) - 65536

namespace i2c

/-- Go `i2c.DefaultReadDelay = 0`. -/
def DefaultReadDelay : Nat := 0

/-- Go struct `I2C { addr uint8; bus int; rc *os.File }`. -/
structure I2C (σ : Type) where
  addr : Nat
  bus : Int
  rc : FileSt σ

/-- Go `NewI2C`: after the (external) open and `I2C_SLAVE` ioctl succeed it
builds `&I2C{rc: f, bus: bus, addr: addr}`.  The OS steps are external
collaborators; the successfully opened handle `f` is a parameter. -/
def NewI2C {σ : Type} (addr : Nat) (bus : Int) (f : FileSt σ) : I2C σ :=
  { addr := addr, bus := bus, rc := f }

/-- Go `GetBus`: `return v.bus`. -/
def GetBus {σ : Type} (v : I2C σ) : Int :=
  v.bus

/-- Go `GetAddr`: `return v.addr`. -/
def GetAddr {σ : Type} (v : I2C σ) : Nat :=
  v.addr

/-- Go `(v *I2C) write(buf)`: `return v.rc.Write(buf)`. -/
def write {σ : Type} (d : Dev σ) (v : I2C σ) (buf : List Nat) :
    I2C σ × Nat × Option Err :=
  match fwrite d v.rc buf with
  | (f, n, e) => ({ v with rc := f }, n, e)

/-- Go `WriteBytes`: a trace-level log (external observability, not
modelled) followed by `v.write(buf)`. -/
def WriteBytes {σ : Type} (d : Dev σ) (v : I2C σ) (buf : List Nat) :
    I2C σ × Nat × Option Err :=
  write d v buf

/-- Go `(v *I2C) read(buf)`: `return v.rc.Read(buf)`; the buffer size is
the argument, the filled bytes come back with the count. -/
def read {σ : Type} (d : Dev σ) (v : I2C σ) (n : Nat) :
    I2C σ × Nat × List Nat × Option Err :=
  match fread d v.rc n with
  | (f, c, bs, e) => ({ v with rc := f }, c, bs, e)

/-- Go `ReadBytes`: `v.read(buf)`, early return on error, otherwise log
(not modelled) and return the same count. -/
def ReadBytes {σ : Type} (d : Dev σ) (v : I2C σ) (n : Nat) :
    I2C σ × Nat × List Nat × Option Err :=
  read d v n

/-- Go `time.Sleep(delay)` inside the read protocol: recorded in the
trace, no other effect in the model. -/
def doSleep {σ : Type} (v : I2C σ) (delay : Nat) : I2C σ :=
  { v with rc := { v.rc with calls := v.rc.calls ++ [Ev.sleep delay] } }

/-- Go `Close`: `return v.rc.Close()`. -/
def Close {σ : Type} (v : I2C σ) : I2C σ × Option Err :=
  match fclose v.rc with
  | (f, e) => ({ v with rc := f }, e)

/-- Go `ReadRegBytesWithDelay`: write `[reg]`, on error return
`(nil, 0, err)`; sleep; read an `n`-byte zeroed buffer, on error return
`(nil, 0, err)`; else return `(buf, c, nil)`. -/
def ReadRegBytesWithDelay {σ : Type} (d : Dev σ) (v : I2C σ)
    (reg n delay : Nat) : I2C σ × List Nat × Nat × Option Err :=
  match WriteBytes d v [reg] with
  | (v1, _, some e) => (v1, [], 0, some e)
  | (v1, _, none) =>
    match ReadBytes d (doSleep v1 delay) n with
    | (v3, _, _, some e) => (v3, [], 0, some e)
    | (v3, c, bs, none) => (v3, fillBuf n bs, c, none)

/-- Go `ReadRegBytes`: delegate with `DefaultReadDelay`. -/
def ReadRegBytes {σ : Type} (d : Dev σ) (v : I2C σ) (reg n : Nat) :
    I2C σ × List Nat × Nat × Option Err :=
  ReadRegBytesWithDelay d v reg n DefaultReadDelay

/-- Go `ReadRegU8WithDelay`: write `[reg]`, on error `(0, err)`; sleep;
read 1 byte discarding the count, on error `(0, err)`; else `buf[0]`. -/
def ReadRegU8WithDelay {σ : Type} (d : Dev σ) (v : I2C σ)
    (reg delay : Nat) : I2C σ × Nat × Option Err :=
  match WriteBytes d v [reg] with
  | (v1, _, some e) => (v1, 0, some e)
  | (v1, _, none) =>
    match ReadBytes d (doSleep v1 delay) 1 with
    | (v3, _, _, some e) => (v3, 0, some e)
    | (v3, _, bs, none) => (v3, (fillBuf 1 bs).headD 0, none)

/-- Go `ReadRegU8`: delegate with `DefaultReadDelay`. -/
def ReadRegU8 {σ : Type} (d : Dev σ) (v : I2C σ) (reg : Nat) :
    I2C σ × Nat × Option Err :=
  ReadRegU8WithDelay d v reg DefaultReadDelay

/-- Go `ReadRegU16BEWithDelay`: select, sleep, read 2 bytes discarding the
count, then `w := uint16(buf[0])<<8 + uint16(buf[1])` (uint16 arithmetic,
hence the `% 65536`). -/
def ReadRegU16BEWithDelay {σ : Type} (d : Dev σ) (v : I2C σ)
    (reg delay : Nat) : I2C σ × Nat × Option Err :=
  match WriteBytes d v [reg] with
  | (v1, _, some e) => (v1, 0, some e)
  | (v1, _, none) =>
    match ReadBytes d (doSleep v1 delay) 2 with
    | (v3, _, _, some e) => (v3, 0, some e)
    | (v3, _, bs, none) =>
      let buf := fillBuf 2 bs
      (v3, (buf.headD 0 * 256 + buf.getD 1 0) % 65536, none)

/-- Go `ReadRegU16BE`: delegate with `DefaultReadDelay`. -/
def ReadRegU16BE {σ : Type} (d : Dev σ) (v : I2C σ) (reg : Nat) :
    I2C σ × Nat × Option Err :=
  ReadRegU16BEWithDelay d v reg DefaultReadDelay

/-- Go `ReadRegU16LEWithDelay`: the big-endian read, then the uint16 swap
`w = (w&0xFF)<<8 + w>>8`. -/
def ReadRegU16LEWithDelay {σ : Type} (d : Dev σ) (v : I2C σ)
    (reg delay : Nat) : I2C σ × Nat × Option Err :=
  match ReadRegU16BEWithDelay d v reg delay with
  | (v1, _, some e) => (v1, 0, some e)
  | (v1, w, none) => (v1, (w % 256 * 256 + w / 256) % 65536, none)

/-- Go `ReadRegU16LE`: delegate with `DefaultReadDelay`. -/
def ReadRegU16LE {σ : Type} (d : Dev σ) (v : I2C σ) (reg : Nat) :
    I2C σ × Nat × Option Err :=
  ReadRegU16LEWithDelay d v reg DefaultReadDelay

/-- Go `ReadRegS16BEWithDelay`: select, sleep, read 2 bytes discarding the
count, then `w := int16(buf[0])<<8 + int16(buf[1])` — each int16 step wraps
(`wrap16`). -/
def ReadRegS16BEWithDelay {σ : Type} (d : Dev σ) (v : I2C σ)
    (reg delay : Nat) : I2C σ × Int × Option Err :=
  match WriteBytes d v [reg] with
  | (v1, _, some e) => (v1, 0, some e)
  | (v1, _, none) =>
    match ReadBytes d (doSleep v1 delay) 2 with
    | (v3, _, _, some e) => (v3, 0, some e)
    | (v3, _, bs, none) =>
      let buf := fillBuf 2 bs
      (v3, wrap16 (wrap16 ((buf.headD 0 : Int) * 256) + (buf.getD 1 0 : Int)), none)

/-- Go `ReadRegS16BE`: delegate with `DefaultReadDelay`. -/
def ReadRegS16BE {σ : Type} (d : Dev σ) (v : I2C σ) (reg : Nat) :
    I2C σ × Int × Option Err :=
  ReadRegS16BEWithDelay d v reg DefaultReadDelay

/-- Go `ReadRegS16LEWithDelay`: the signed big-endian read, then
`w = (w&0xFF)<<8 + w>>8` on int16: `w & 0xFF` is `w % 256` (emod), `<< 8`
wraps, and `>> 8` is an ARITHMETIC shift — `Int.fdiv w 256`. -/
def ReadRegS16LEWithDelay {σ : Type} (d : Dev σ) (v : I2C σ)
    (reg delay : Nat) : I2C σ × Int × Option Err :=
  match ReadRegS16BEWithDelay d v reg delay with
  | (v1, _, some e) => (v1, 0, some e)
  | (v1, w, none) => (v1, wrap16 (wrap16 (w % 256 * 256) + Int.fdiv w 256), none)

/-- Go `ReadRegS16LE`: delegate with `DefaultReadDelay`. -/
def ReadRegS16LE {σ : Type} (d : Dev σ) (v : I2C σ) (reg : Nat) :
    I2C σ × Int × Option Err :=
  ReadRegS16LEWithDelay d v reg DefaultReadDelay

/-- Go `WriteRegU8`: one `WriteBytes` of `[reg, value]`, return only the
error. -/
def WriteRegU8 {σ : Type} (d : Dev σ) (v : I2C σ) (reg value : Nat) :
    I2C σ × Option Err :=
  match WriteBytes d v [reg, value] with
  | (v1, _, e) => (v1, e)

/-- Go `WriteRegU16BE`: one `WriteBytes` of
`[reg, byte((value&0xFF00)>>8), byte(value&0xFF)]`; on a uint16 `value`
those bytes are `value / 256` (here with the `byte` truncation `% 256`
kept) and `value % 256`. -/
def WriteRegU16BE {σ : Type} (d : Dev σ) (v : I2C σ) (reg value : Nat) :
    I2C σ × Option Err :=
  match WriteBytes d v [reg, value / 256 % 256, value % 256] with
  | (v1, _, e) => (v1, e)

/-- Go `WriteRegU16LE`: `w := (value*0xFF00)>>8 + value<<8` in uint16
arithmetic (note: MULTIPLICATION by 0xFF00, wrapping mod 2^16, exactly as
the source has it), then delegate to `WriteRegU16BE`. -/
def WriteRegU16LE {σ : Type} (d : Dev σ) (v : I2C σ) (reg value : Nat) :
    I2C σ × Option Err :=
  WriteRegU16BE d v reg ((value * 65280 % 65536 / 256 + value * 256 % 65536) % 65536)

/-- Go `WriteRegS16BE`: one `WriteBytes` of
`[reg, byte((uint16(value)&0xFF00)>>8), byte(value&0xFF)]`: the uint16
pattern of `value` is `(value % 65536).toNat` and `value & 0xFF` is the
emod `value % 256`. -/
def WriteRegS16BE {σ : Type} (d : Dev σ) (v : I2C σ) (reg : Nat)
    (value : Int) : I2C σ × Option Err :=
  match WriteBytes d v [reg, (value % 65536).toNat / 256 % 256, (value % 256).toNat] with
  | (v1, _, e) => (v1, e)

/-- Go `WriteRegS16LE`: `w := int16((uint16(value)*0xFF00)>>8) + value<<8`
(uint16 multiplication wraps mod 2^16, the shift is logical, the int16 cast
and the int16 `+` and `<< 8` wrap), then delegate to `WriteRegS16BE`. -/
def WriteRegS16LE {σ : Type} (d : Dev σ) (v : I2C σ) (reg : Nat)
    (value : Int) : I2C σ × Option Err :=
  WriteRegS16BE d v reg
    (wrap16 (wrap16 (((value % 65536).toNat * 65280 % 65536 / 256 : Nat) : Int) +
      wrap16 (value * 256)))

/-- A device that always answers reads with the fixed bytes `bs` (reported
count = requested size) and accepts every write. -/
def constDev (bs : List Nat) : Dev Unit :=
  { write := fun s buf => (s, buf.length, none)
    read := fun s n => (s, n, bs, none) }

/-- A device whose writes always fail with `devErr code`; reads would
succeed with zeros. -/
def failWrDev (code : Nat) : Dev Unit :=
  { write := fun s _ => (s, 0, some (Err.devErr code))
    read := fun s n => (s, n, [], none) }

/-- A device that accepts every write, reporting the requested size back on
reads but filling only the bytes `bs` (possibly fewer than requested): a
"short successful read". The reported count is the arbitrary `c`. -/
def shortDev (c : Nat) (bs : List Nat) : Dev Unit :=
  { write := fun s buf => (s, buf.length, none)
    read := fun s _ => (s, c, bs, none) }

/-- The loopback device of the spec's round-trip property: a write of a
register frame `[reg, data...]` stores the data bytes; a register-select
write (a single byte) keeps them; a read delivers them back verbatim. -/
def echoDev : Dev (List Nat) :=
  { write := fun s buf => (if 2 ≤ buf.length then buf.drop 1 else s, buf.length, none)
    read := fun s n => (s, n, s, none) }

/-- A freshly opened channel on device state `s0`: open handle, empty
trace. -/
def mkChan {σ : Type} (addr : Nat) (bus : Int) (s0 : σ) : I2C σ :=
  NewI2C addr bus { dev := s0, closed := false, calls := [] }

/-! Helper lemmas shared by several claim proofs. -/

theorem wrap16_add_wrap_left (a b : Int) : wrap16 (wrap16 a + b) = wrap16 (a + b) := by
  unfold wrap16
  omega

theorem s16_eq_wrap16 (n : Nat) : s16 n = wrap16 n := by
  unfold s16 wrap16
  split <;> omega

theorem calls_WriteBytes {σ : Type} (d : Dev σ) (v : I2C σ) (buf : List Nat)
    (h : v.rc.closed = false) :
    (WriteBytes d v buf).1.rc.calls = v.rc.calls ++ [Ev.wr buf] := by
  unfold WriteBytes write fwrite
  rcases hw : d.write v.rc.dev buf with ⟨dv, n, e⟩
  simp [h, hw]

/-! Claims C1–C3: the little-endian derivations in the source. -/

/-- C1: the claim says `WriteRegU16LE`/`WriteRegS16LE` delegate to the
big-endian writers with the value's two bytes swapped, i.e. data bytes
`[low, high]`.  The source computes the word with `(value*0xFF00)>>8`
(a wrapping multiplication) instead of `(value&0xFF00)>>8`: at `value = 1`
both writers emit the frame `[reg, 0x01, 0xFF]`, not the byte-swapped
`[reg, 0x01, 0x00]`. -/
theorem writeRegU16LE_swap_bug :
    (WriteRegU16LE (constDev []) (mkChan 16 1 ()) 0 1).1.rc.calls = [Ev.wr [0, 1, 255]]
    ∧ (WriteRegS16LE (constDev []) (mkChan 16 1 ()) 0 1).1.rc.calls = [Ev.wr [0, 1, 255]]
    ∧ [Ev.wr [0, 1, 255]] ≠ [Ev.wr [0, 1, 0]] := by
  refine ⟨by decide, by decide, by decide⟩

/-- C2: the claim says writing `v` with `WriteRegU16LE` and reading it back
with `ReadRegU16LE` through a transport that echoes the written data bytes
returns `v`.  At `v = 1` the buggy write emits data bytes `[0x01, 0xFF]`,
so the read returns `0xFF01 = 65281`, not `1`. -/
theorem u16le_roundtrip_bug :
    (ReadRegU16LE echoDev (WriteRegU16LE echoDev (mkChan 16 1 []) 0 1).1 0).2
      = (65281, none)
    ∧ (65281 : Nat) ≠ 1 := by
  refine ⟨by decide, by decide⟩

/-- C3: the claim says `ReadRegS16LE` of wire bytes `[b0, b1]` returns the
signed interpretation of `(b1 << 8) + b0`, even when `b0` has its high bit
set.  The source swaps with `(w&0xFF)<<8 + w>>8` on `int16`, where `>> 8`
is an arithmetic (sign-extending) shift: at wire bytes `[0xFF, 0x00]` it
returns `-1` where the claim demands `s16 0x00FF = 255`. -/
theorem readRegS16LE_swap_bug :
    (ReadRegS16LE (constDev [255, 0]) (mkChan 16 1 ()) 0).2 = (-1, none)
    ∧ s16 (0 * 256 + 255) = 255
    ∧ (-1 : Int) ≠ 255 := by
  refine ⟨by decide, by decide, by decide⟩

/-! Compute lemmas: the 16-bit reads against a device that answers with
fixed bytes. -/

theorem readU16BE_constDev (v : I2C Unit) (reg delay : Nat) (bs : List Nat)
    (h : v.rc.closed = false) :
    (ReadRegU16BEWithDelay (constDev bs) v reg delay).2 =
      (((fillBuf 2 bs).headD 0 * 256 + (fillBuf 2 bs).getD 1 0) % 65536, none) := by
  simp [ReadRegU16BEWithDelay, WriteBytes, write, fwrite, ReadBytes, read, fread,
    doSleep, constDev, h]

theorem readS16BE_constDev (v : I2C Unit) (reg delay : Nat) (bs : List Nat)
    (h : v.rc.closed = false) :
    (ReadRegS16BEWithDelay (constDev bs) v reg delay).2 =
      (wrap16 (wrap16 (((fillBuf 2 bs).headD 0 : Int) * 256) + ((fillBuf 2 bs).getD 1 0 : Int)),
        none) := by
  simp [ReadRegS16BEWithDelay, WriteBytes, write, fwrite, ReadBytes, read, fread,
    doSleep, constDev, h]

theorem wrap16_eq_of_emod (a b : Int) (h : a % 65536 = b % 65536) :
    wrap16 a = wrap16 b := by
  unfold wrap16
  omega

theorem fillBuf_pair (b0 b1 : Nat) : fillBuf 2 [b0, b1] = [b0 % 256, b1 % 256] := rfl

theorem readU16LE_constDev (v : I2C Unit) (reg delay : Nat) (bs : List Nat)
    (h : v.rc.closed = false) :
    (ReadRegU16LEWithDelay (constDev bs) v reg delay).2 =
      ((((fillBuf 2 bs).headD 0 * 256 + (fillBuf 2 bs).getD 1 0) % 65536 % 256 * 256 +
        ((fillBuf 2 bs).headD 0 * 256 + (fillBuf 2 bs).getD 1 0) % 65536 / 256) % 65536,
        none) := by
  simp [ReadRegU16LEWithDelay, ReadRegU16BEWithDelay, WriteBytes, write, fwrite,
    ReadBytes, read, fread, doSleep, constDev, h]

/-- C4: `ReadRegU16BE` assembles wire bytes `[b0, b1]` as the unsigned word
`(b0 << 8) + b1`, and `ReadRegU16LE` of the same wire bytes yields
`(b1 << 8) + b0`; wire bytes `[0x01, 0x02]` give `0x0102` resp. `0x0201`
(the witness instantiates that instance). -/
theorem readRegU16_endianness (v : I2C Unit) (reg delay b0 b1 : Nat)
    (hopen : v.rc.closed = false) (h0 : b0 < 256) (h1 : b1 < 256) :
    (ReadRegU16BEWithDelay (constDev [b0, b1]) v reg delay).2 = (b0 * 256 + b1, none)
    ∧ (ReadRegU16BE (constDev [b0, b1]) v reg).2 = (b0 * 256 + b1, none)
    ∧ (ReadRegU16LEWithDelay (constDev [b0, b1]) v reg delay).2 = (b1 * 256 + b0, none)
    ∧ (ReadRegU16LE (constDev [b0, b1]) v reg).2 = (b1 * 256 + b0, none) := by
  have hbe : ∀ dl : Nat,
      (ReadRegU16BEWithDelay (constDev [b0, b1]) v reg dl).2 = (b0 * 256 + b1, none) := by
    intro dl
    rw [readU16BE_constDev v reg dl [b0, b1] hopen, fillBuf_pair]
    simp only [List.headD_cons, List.getD_cons_succ, List.getD_cons_zero, Prod.mk.injEq]
    exact ⟨by omega, trivial⟩
  have hle : ∀ dl : Nat,
      (ReadRegU16LEWithDelay (constDev [b0, b1]) v reg dl).2 = (b1 * 256 + b0, none) := by
    intro dl
    rw [readU16LE_constDev v reg dl [b0, b1] hopen, fillBuf_pair]
    simp only [List.headD_cons, List.getD_cons_succ, List.getD_cons_zero, Prod.mk.injEq]
    refine ⟨?_, trivial⟩
    rw [Nat.mod_eq_of_lt h0, Nat.mod_eq_of_lt h1,
      Nat.mod_eq_of_lt (show b0 * 256 + b1 < 65536 by omega)]
    have e4 : (b0 * 256 + b1) % 256 = b1 := by omega
    have e5 : (b0 * 256 + b1) / 256 = b0 := by omega
    rw [e4, e5]
    omega
  exact ⟨hbe delay, hbe DefaultReadDelay, hle delay, hle DefaultReadDelay⟩

/-- C4 witness at wire bytes `[0x01, 0x02]`, register `0x10`: the
big-endian read returns `0x0102 = 258` and the little-endian read returns
`0x0201 = 513`. -/
theorem readRegU16_endianness_witness :
    (ReadRegU16BE (constDev [1, 2]) (mkChan 16 1 ()) 16).2 = (258, none)
    ∧ (ReadRegU16LE (constDev [1, 2]) (mkChan 16 1 ()) 16).2 = (513, none) := by
  have h := readRegU16_endianness (mkChan 16 1 ()) 16 0 1 2 rfl (by decide) (by decide)
  exact ⟨h.2.1, h.2.2.2⟩

/-- C5: `ReadRegS16BE` returns the signed 16-bit two's-complement
interpretation of `(b0 << 8) + b1` for every wire byte pair; in particular
wire bytes `[0xFF, 0xFF]` give `-1`, not `65535`. -/
theorem readRegS16BE_twos_complement (v : I2C Unit) (reg delay b0 b1 : Nat)
    (hopen : v.rc.closed = false) (h0 : b0 < 256) (h1 : b1 < 256) :
    (ReadRegS16BEWithDelay (constDev [b0, b1]) v reg delay).2 = (s16 (b0 * 256 + b1), none)
    ∧ (ReadRegS16BE (constDev [b0, b1]) v reg).2 = (s16 (b0 * 256 + b1), none)
    ∧ (ReadRegS16BE (constDev [255, 255]) v reg).2 = (-1, none) := by
  have main : ∀ (c0 c1 : Nat), c0 < 256 → c1 < 256 → ∀ dl : Nat,
      (ReadRegS16BEWithDelay (constDev [c0, c1]) v reg dl).2 =
        (s16 (c0 * 256 + c1), none) := by
    intro c0 c1 hc0 hc1 dl
    rw [readS16BE_constDev v reg dl [c0, c1] hopen, fillBuf_pair]
    simp only [List.headD_cons, List.getD_cons_succ, List.getD_cons_zero, Prod.mk.injEq]
    refine ⟨?_, trivial⟩
    rw [Nat.mod_eq_of_lt hc0, Nat.mod_eq_of_lt hc1, wrap16_add_wrap_left, s16_eq_wrap16]
    apply wrap16_eq_of_emod
    push_cast
    ring_nf
  refine ⟨main b0 b1 h0 h1 delay, main b0 b1 h0 h1 DefaultReadDelay, ?_⟩
  exact (main 255 255 (by omega) (by omega) DefaultReadDelay).trans (by decide)

/-- C5 witness: wire bytes `[0xFF, 0xFF]` read through the signed
big-endian path yield `-1`. -/
theorem readRegS16BE_twos_complement_witness :
    (ReadRegS16BE (constDev [255, 255]) (mkChan 16 1 ()) 0).2 = (-1, none) :=
  (readRegS16BE_twos_complement (mkChan 16 1 ()) 0 0 255 255 rfl (by decide)
    (by decide)).2.2

/-- The channel state after a failed register-select write of `[reg]`: the
device advanced to `dv`, the trace grew by exactly the one write event —
in particular it contains no `Ev.rd`, so the transport's read primitive
was never invoked. -/
def stateAfterSelectWrite {σ : Type} (v : I2C σ) (dv : σ) (reg : Nat) : I2C σ :=
  { v with rc := { v.rc with dev := dv, calls := v.rc.calls ++ [Ev.wr [reg]] } }

/-- C6: for every register-read operation, if the register-select write of
`[reg]` fails with error `e`, the operation returns exactly that error
together with a zero/nil result, and the transport's read primitive is
never invoked (the trace grows by the single write event only). -/
theorem readReg_select_write_failure {σ : Type} (d : Dev σ) (v : I2C σ)
    (reg n delay cnt : Nat) (dv : σ) (e : Err)
    (hopen : v.rc.closed = false)
    (hw : d.write v.rc.dev [reg] = (dv, cnt, some e)) :
    ReadRegBytesWithDelay d v reg n delay = (stateAfterSelectWrite v dv reg, [], 0, some e)
    ∧ ReadRegBytes d v reg n = (stateAfterSelectWrite v dv reg, [], 0, some e)
    ∧ ReadRegU8WithDelay d v reg delay = (stateAfterSelectWrite v dv reg, 0, some e)
    ∧ ReadRegU8 d v reg = (stateAfterSelectWrite v dv reg, 0, some e)
    ∧ ReadRegU16BEWithDelay d v reg delay = (stateAfterSelectWrite v dv reg, 0, some e)
    ∧ ReadRegU16BE d v reg = (stateAfterSelectWrite v dv reg, 0, some e)
    ∧ ReadRegU16LEWithDelay d v reg delay = (stateAfterSelectWrite v dv reg, 0, some e)
    ∧ ReadRegU16LE d v reg = (stateAfterSelectWrite v dv reg, 0, some e)
    ∧ ReadRegS16BEWithDelay d v reg delay = (stateAfterSelectWrite v dv reg, 0, some e)
    ∧ ReadRegS16BE d v reg = (stateAfterSelectWrite v dv reg, 0, some e)
    ∧ ReadRegS16LEWithDelay d v reg delay = (stateAfterSelectWrite v dv reg, 0, some e)
    ∧ ReadRegS16LE d v reg = (stateAfterSelectWrite v dv reg, 0, some e) := by
  refine ⟨?_, ?_, ?_, ?_, ?_, ?_, ?_, ?_, ?_, ?_, ?_, ?_⟩ <;>
    simp [ReadRegBytesWithDelay, ReadRegBytes, ReadRegU8WithDelay, ReadRegU8,
      ReadRegU16BEWithDelay, ReadRegU16BE, ReadRegU16LEWithDelay, ReadRegU16LE,
      ReadRegS16BEWithDelay, ReadRegS16BE, ReadRegS16LEWithDelay, ReadRegS16LE,
      WriteBytes, write, fwrite, stateAfterSelectWrite, hopen, hw]

/-- C6 witness: against a device whose writes always fail with `devErr 7`,
`ReadRegU8WithDelay` on a fresh channel surfaces exactly that error with a
zero result and the trace records no read. -/
theorem readReg_select_write_failure_witness :
    ReadRegU8WithDelay (failWrDev 7) (mkChan 16 1 ()) 5 2 =
      (stateAfterSelectWrite (mkChan 16 1 ()) () 5, 0, some (Err.devErr 7)) :=
  (readReg_select_write_failure (failWrDev 7) (mkChan 16 1 ()) 5 3 2 0 () (Err.devErr 7)
    rfl rfl).2.2.1

/-- C7: each register write performs exactly one transport write, whose
frame is the register address followed by the data byte(s): `[reg, b]` for
`WriteRegU8`, `[reg, high, low]` for the big-endian word writes — no
separate register-select transaction, no read and no sleep (the trace
grows by exactly the one write event). -/
theorem writeReg_single_frame {σ : Type} (d : Dev σ) (v : I2C σ)
    (reg b value : Nat) (sv : Int)
    (hopen : v.rc.closed = false) (hval : value < 65536) :
    (WriteRegU8 d v reg b).1.rc.calls = v.rc.calls ++ [Ev.wr [reg, b]]
    ∧ (WriteRegU16BE d v reg value).1.rc.calls =
        v.rc.calls ++ [Ev.wr [reg, value / 256, value % 256]]
    ∧ (WriteRegS16BE d v reg sv).1.rc.calls =
        v.rc.calls ++ [Ev.wr [reg, (sv % 65536).toNat / 256, (sv % 65536).toNat % 256]] := by
  have h8 : (WriteRegU8 d v reg b).1 = (WriteBytes d v [reg, b]).1 := by
    unfold WriteRegU8
    rcases hx : WriteBytes d v [reg, b] with ⟨v1, n1, e1⟩
    rfl
  have h16 : (WriteRegU16BE d v reg value).1 =
      (WriteBytes d v [reg, value / 256 % 256, value % 256]).1 := by
    unfold WriteRegU16BE
    rcases hx : WriteBytes d v [reg, value / 256 % 256, value % 256] with ⟨v1, n1, e1⟩
    rfl
  have hs16 : (WriteRegS16BE d v reg sv).1 =
      (WriteBytes d v [reg, (sv % 65536).toNat / 256 % 256, (sv % 256).toNat]).1 := by
    unfold WriteRegS16BE
    rcases hx : WriteBytes d v [reg, (sv % 65536).toNat / 256 % 256, (sv % 256).toNat]
      with ⟨v1, n1, e1⟩
    rfl
  refine ⟨?_, ?_, ?_⟩
  · rw [h8, calls_WriteBytes d v [reg, b] hopen]
  · rw [h16, calls_WriteBytes d v [reg, value / 256 % 256, value % 256] hopen]
    have : value / 256 % 256 = value / 256 := by omega
    rw [this]
  · rw [hs16, calls_WriteBytes d v [reg, (sv % 65536).toNat / 256 % 256, (sv % 256).toNat]
      hopen]
    have e1 : (sv % 65536).toNat / 256 % 256 = (sv % 65536).toNat / 256 := by omega
    have e2 : (sv % 256).toNat = (sv % 65536).toNat % 256 := by omega
    rw [e1, e2]

/-- C7 witness: on a fresh channel, `WriteRegU8 2 3` emits the single
frame `[2, 3]`, `WriteRegU16BE 2 0x0102` emits `[2, 1, 2]`, and
`WriteRegS16BE 2 (-1)` emits `[2, 255, 255]`. -/
theorem writeReg_single_frame_witness :
    (WriteRegU8 (constDev []) (mkChan 16 1 ()) 2 3).1.rc.calls = [Ev.wr [2, 3]]
    ∧ (WriteRegU16BE (constDev []) (mkChan 16 1 ()) 2 258).1.rc.calls = [Ev.wr [2, 1, 2]]
    ∧ (WriteRegS16BE (constDev []) (mkChan 16 1 ()) 2 (-1)).1.rc.calls =
        [Ev.wr [2, 255, 255]] := by
  have h := writeReg_single_frame (constDev []) (mkChan 16 1 ()) 2 3 258 (-1) rfl
    (by decide)
  exact ⟨h.1.trans (by decide), h.2.1.trans (by decide), h.2.2.trans (by decide)⟩

/-! Helper lemmas: no operation flips the closed flag (only `Close` does),
and every operation on a closed channel fails with `ErrClosed` leaving the
channel untouched. -/

theorem closed_WriteBytes {σ : Type} (d : Dev σ) (v : I2C σ) (buf : List Nat) :
    (WriteBytes d v buf).1.rc.closed = v.rc.closed := by
  unfold WriteBytes write fwrite
  cases hcl : v.rc.closed
  · rcases hx : d.write v.rc.dev buf with ⟨dv, n, e⟩
    simp [hcl, hx]
  · simp [hcl]

theorem closed_ReadBytes {σ : Type} (d : Dev σ) (v : I2C σ) (n : Nat) :
    (ReadBytes d v n).1.rc.closed = v.rc.closed := by
  unfold ReadBytes read fread
  cases hcl : v.rc.closed
  · rcases hx : d.read v.rc.dev n with ⟨dv, c, bs, e⟩
    simp [hcl, hx]
  · simp [hcl]

theorem closed_ReadRegBytesWithDelay {σ : Type} (d : Dev σ) (v : I2C σ)
    (reg n delay : Nat) :
    (ReadRegBytesWithDelay d v reg n delay).1.rc.closed = v.rc.closed := by
  unfold ReadRegBytesWithDelay
  split
  · next v1 n1 e hx =>
      have h := closed_WriteBytes d v [reg]
      rw [hx] at h
      simpa using h
  · next v1 n1 hx =>
      have h1 := closed_WriteBytes d v [reg]
      rw [hx] at h1
      split
      · next v3 c bs e2 hy =>
          have h2 := closed_ReadBytes d (doSleep v1 delay) n
          rw [hy] at h2
          simp only [doSleep] at h2
          simpa using h2.trans h1
      · next v3 c bs hy =>
          have h2 := closed_ReadBytes d (doSleep v1 delay) n
          rw [hy] at h2
          simp only [doSleep] at h2
          simpa using h2.trans h1
theorem closed_ReadRegU8WithDelay {σ : Type} (d : Dev σ) (v : I2C σ)
    (reg delay : Nat) :
    (ReadRegU8WithDelay d v reg delay).1.rc.closed = v.rc.closed := by
  unfold ReadRegU8WithDelay
  split
  · next v1 n1 e hx =>
      have h := closed_WriteBytes d v [reg]
      rw [hx] at h
      simpa using h
  · next v1 n1 hx =>
      have h1 := closed_WriteBytes d v [reg]
      rw [hx] at h1
      split
      · next v3 c bs e2 hy =>
          have h2 := closed_ReadBytes d (doSleep v1 delay) 1
          rw [hy] at h2
          simp only [doSleep] at h2
          simpa using h2.trans h1
      · next v3 c bs hy =>
          have h2 := closed_ReadBytes d (doSleep v1 delay) 1
          rw [hy] at h2
          simp only [doSleep] at h2
          simpa using h2.trans h1
theorem closed_ReadRegU16BEWithDelay {σ : Type} (d : Dev σ) (v : I2C σ)
    (reg delay : Nat) :
    (ReadRegU16BEWithDelay d v reg delay).1.rc.closed = v.rc.closed := by
  unfold ReadRegU16BEWithDelay
  split
  · next v1 n1 e hx =>
      have h := closed_WriteBytes d v [reg]
      rw [hx] at h
      simpa using h
  · next v1 n1 hx =>
      have h1 := closed_WriteBytes d v [reg]
      rw [hx] at h1
      split
      · next v3 c bs e2 hy =>
          have h2 := closed_ReadBytes d (doSleep v1 delay) 2
          rw [hy] at h2
          simp only [doSleep] at h2
          simpa using h2.trans h1
      · next v3 c bs hy =>
          have h2 := closed_ReadBytes d (doSleep v1 delay) 2
          rw [hy] at h2
          simp only [doSleep] at h2
          simpa using h2.trans h1
theorem closed_ReadRegS16BEWithDelay {σ : Type} (d : Dev σ) (v : I2C σ)
    (reg delay : Nat) :
    (ReadRegS16BEWithDelay d v reg delay).1.rc.closed = v.rc.closed := by
  unfold ReadRegS16BEWithDelay
  split
  · next v1 n1 e hx =>
      have h := closed_WriteBytes d v [reg]
      rw [hx] at h
      simpa using h
  · next v1 n1 hx =>
      have h1 := closed_WriteBytes d v [reg]
      rw [hx] at h1
      split
      · next v3 c bs e2 hy =>
          have h2 := closed_ReadBytes d (doSleep v1 delay) 2
          rw [hy] at h2
          simp only [doSleep] at h2
          simpa using h2.trans h1
      · next v3 c bs hy =>
          have h2 := closed_ReadBytes d (doSleep v1 delay) 2
          rw [hy] at h2
          simp only [doSleep] at h2
          simpa using h2.trans h1
theorem closed_ReadRegU16LEWithDelay {σ : Type} (d : Dev σ) (v : I2C σ)
    (reg delay : Nat) :
    (ReadRegU16LEWithDelay d v reg delay).1.rc.closed = v.rc.closed := by
  unfold ReadRegU16LEWithDelay
  rcases hx : ReadRegU16BEWithDelay d v reg delay with ⟨v1, w, e⟩
  have p1 : v1.rc.closed = v.rc.closed := by
    have h := closed_ReadRegU16BEWithDelay d v reg delay
    rw [hx] at h
    exact h
  cases e with
  | some e => simpa using p1
  | none => simpa using p1

theorem closed_ReadRegS16LEWithDelay {σ : Type} (d : Dev σ) (v : I2C σ)
    (reg delay : Nat) :
    (ReadRegS16LEWithDelay d v reg delay).1.rc.closed = v.rc.closed := by
  unfold ReadRegS16LEWithDelay
  rcases hx : ReadRegS16BEWithDelay d v reg delay with ⟨v1, w, e⟩
  have p1 : v1.rc.closed = v.rc.closed := by
    have h := closed_ReadRegS16BEWithDelay d v reg delay
    rw [hx] at h
    exact h
  cases e with
  | some e => simpa using p1
  | none => simpa using p1

theorem closed_WriteRegU8 {σ : Type} (d : Dev σ) (v : I2C σ) (reg b : Nat) :
    (WriteRegU8 d v reg b).1.rc.closed = v.rc.closed := by
  unfold WriteRegU8
  rcases hx : WriteBytes d v [reg, b] with ⟨v1, n1, e1⟩
  have p1 : v1.rc.closed = v.rc.closed := by
    have h := closed_WriteBytes d v [reg, b]
    rw [hx] at h
    exact h
  exact p1

theorem closed_WriteRegU16BE {σ : Type} (d : Dev σ) (v : I2C σ)
    (reg value : Nat) :
    (WriteRegU16BE d v reg value).1.rc.closed = v.rc.closed := by
  unfold WriteRegU16BE
  rcases hx : WriteBytes d v [reg, value / 256 % 256, value % 256] with ⟨v1, n1, e1⟩
  have p1 : v1.rc.closed = v.rc.closed := by
    have h := closed_WriteBytes d v [reg, value / 256 % 256, value % 256]
    rw [hx] at h
    exact h
  exact p1

theorem closed_WriteRegS16BE {σ : Type} (d : Dev σ) (v : I2C σ) (reg : Nat)
    (sv : Int) :
    (WriteRegS16BE d v reg sv).1.rc.closed = v.rc.closed := by
  unfold WriteRegS16BE
  rcases hx : WriteBytes d v [reg, (sv % 65536).toNat / 256 % 256, (sv % 256).toNat]
    with ⟨v1, n1, e1⟩
  have p1 : v1.rc.closed = v.rc.closed := by
    have h := closed_WriteBytes d v [reg, (sv % 65536).toNat / 256 % 256, (sv % 256).toNat]
    rw [hx] at h
    exact h
  exact p1

theorem closed_WriteRegU16LE {σ : Type} (d : Dev σ) (v : I2C σ)
    (reg value : Nat) :
    (WriteRegU16LE d v reg value).1.rc.closed = v.rc.closed := by
  unfold WriteRegU16LE
  exact closed_WriteRegU16BE d v reg _

theorem closed_WriteRegS16LE {σ : Type} (d : Dev σ) (v : I2C σ) (reg : Nat)
    (sv : Int) :
    (WriteRegS16LE d v reg sv).1.rc.closed = v.rc.closed := by
  unfold WriteRegS16LE
  exact closed_WriteRegS16BE d v reg _

theorem closedFail_WriteBytes {σ : Type} (d : Dev σ) (w : I2C σ) (buf : List Nat)
    (h : w.rc.closed = true) :
    WriteBytes d w buf = (w, 0, some Err.errClosed) := by
  simp [WriteBytes, write, fwrite, h]

theorem closedFail_ReadBytes {σ : Type} (d : Dev σ) (w : I2C σ) (n : Nat)
    (h : w.rc.closed = true) :
    ReadBytes d w n = (w, 0, [], some Err.errClosed) := by
  simp [ReadBytes, read, fread, h]

/-- C8: `Close` on an open channel succeeds and moves the (two-state,
boolean) channel to `Closed`; on a closed channel every read or write
operation fails with `ErrClosed` and performs no transport call (the
channel, device state and trace are returned untouched); and no read or
write operation ever changes the closed flag, so `Close` is the only
transition. -/
theorem close_channelClosed {σ : Type} (d : Dev σ) (v w : I2C σ)
    (buf : List Nat) (reg n delay b value : Nat) (sv : Int)
    (hopen : v.rc.closed = false) (hcl : w.rc.closed = true) :
    (Close v).2 = none
    ∧ (Close v).1.rc.closed = true
    ∧ WriteBytes d w buf = (w, 0, some Err.errClosed)
    ∧ ReadBytes d w n = (w, 0, [], some Err.errClosed)
    ∧ ReadRegBytesWithDelay d w reg n delay = (w, [], 0, some Err.errClosed)
    ∧ ReadRegU8WithDelay d w reg delay = (w, 0, some Err.errClosed)
    ∧ ReadRegU16BEWithDelay d w reg delay = (w, 0, some Err.errClosed)
    ∧ ReadRegU16LEWithDelay d w reg delay = (w, 0, some Err.errClosed)
    ∧ ReadRegS16BEWithDelay d w reg delay = (w, (0 : Int), some Err.errClosed)
    ∧ ReadRegS16LEWithDelay d w reg delay = (w, (0 : Int), some Err.errClosed)
    ∧ WriteRegU8 d w reg b = (w, some Err.errClosed)
    ∧ WriteRegU16BE d w reg value = (w, some Err.errClosed)
    ∧ WriteRegU16LE d w reg value = (w, some Err.errClosed)
    ∧ WriteRegS16BE d w reg sv = (w, some Err.errClosed)
    ∧ WriteRegS16LE d w reg sv = (w, some Err.errClosed)
    ∧ (WriteBytes d v buf).1.rc.closed = v.rc.closed
    ∧ (ReadBytes d v n).1.rc.closed = v.rc.closed
    ∧ (ReadRegBytesWithDelay d v reg n delay).1.rc.closed = v.rc.closed
    ∧ (ReadRegU8WithDelay d v reg delay).1.rc.closed = v.rc.closed
    ∧ (ReadRegU16BEWithDelay d v reg delay).1.rc.closed = v.rc.closed
    ∧ (ReadRegU16LEWithDelay d v reg delay).1.rc.closed = v.rc.closed
    ∧ (ReadRegS16BEWithDelay d v reg delay).1.rc.closed = v.rc.closed
    ∧ (ReadRegS16LEWithDelay d v reg delay).1.rc.closed = v.rc.closed
    ∧ (WriteRegU8 d v reg b).1.rc.closed = v.rc.closed
    ∧ (WriteRegU16BE d v reg value).1.rc.closed = v.rc.closed
    ∧ (WriteRegU16LE d v reg value).1.rc.closed = v.rc.closed
    ∧ (WriteRegS16BE d v reg sv).1.rc.closed = v.rc.closed
    ∧ (WriteRegS16LE d v reg sv).1.rc.closed = v.rc.closed := by
  have hwb := closedFail_WriteBytes d w buf hcl
  have hwb1 := closedFail_WriteBytes d w [reg] hcl
  refine ⟨by simp [Close, fclose, hopen], by simp [Close, fclose, hopen], hwb,
    closedFail_ReadBytes d w n hcl, ?_, ?_, ?_, ?_, ?_, ?_, ?_, ?_, ?_, ?_, ?_,
    closed_WriteBytes d v buf, closed_ReadBytes d v n,
    closed_ReadRegBytesWithDelay d v reg n delay,
    closed_ReadRegU8WithDelay d v reg delay,
    closed_ReadRegU16BEWithDelay d v reg delay,
    closed_ReadRegU16LEWithDelay d v reg delay,
    closed_ReadRegS16BEWithDelay d v reg delay,
    closed_ReadRegS16LEWithDelay d v reg delay,
    closed_WriteRegU8 d v reg b,
    closed_WriteRegU16BE d v reg value,
    closed_WriteRegU16LE d v reg value,
    closed_WriteRegS16BE d v reg sv,
    closed_WriteRegS16LE d v reg sv⟩
  · rw [ReadRegBytesWithDelay, hwb1]
  · rw [ReadRegU8WithDelay, hwb1]
  · rw [ReadRegU16BEWithDelay, hwb1]
  · rw [ReadRegU16LEWithDelay, ReadRegU16BEWithDelay, hwb1]
  · rw [ReadRegS16BEWithDelay, hwb1]
  · rw [ReadRegS16LEWithDelay, ReadRegS16BEWithDelay, hwb1]
  · rw [WriteRegU8, closedFail_WriteBytes d w [reg, b] hcl]
  · rw [WriteRegU16BE, closedFail_WriteBytes d w [reg, value / 256 % 256, value % 256] hcl]
  · rw [WriteRegU16LE, WriteRegU16BE, closedFail_WriteBytes d w _ hcl]
  · rw [WriteRegS16BE, closedFail_WriteBytes d w _ hcl]
  · rw [WriteRegS16LE, WriteRegS16BE, closedFail_WriteBytes d w _ hcl]

/-- C8 witness: closing a fresh channel succeeds, and on the closed channel
a register write and a register read both fail with `ErrClosed`, returning
the channel untouched. -/
theorem close_channelClosed_witness :
    (Close (mkChan 16 1 ())).2 = none
    ∧ WriteRegU8 (constDev []) (Close (mkChan 16 1 ())).1 2 3 =
        ((Close (mkChan 16 1 ())).1, some Err.errClosed)
    ∧ ReadRegU8WithDelay (constDev []) (Close (mkChan 16 1 ())).1 2 0 =
        ((Close (mkChan 16 1 ())).1, 0, some Err.errClosed) := by
  have h := close_channelClosed (constDev []) (mkChan 16 1 ())
    (Close (mkChan 16 1 ())).1 [] 2 1 0 3 5 0 rfl rfl
  exact ⟨h.1, h.2.2.2.2.2.2.2.2.2.2.1, h.2.2.2.2.2.1⟩


/-! Helper lemmas: no operation changes the stored device address or bus
identifier. -/

theorem addrBus_WriteBytes {σ : Type} (d : Dev σ) (v : I2C σ) (buf : List Nat) :
    (WriteBytes d v buf).1.addr = v.addr ∧ (WriteBytes d v buf).1.bus = v.bus := by
  unfold WriteBytes write
  split
  next f n e hx => exact ⟨rfl, rfl⟩

theorem addrBus_ReadBytes {σ : Type} (d : Dev σ) (v : I2C σ) (n : Nat) :
    (ReadBytes d v n).1.addr = v.addr ∧ (ReadBytes d v n).1.bus = v.bus := by
  unfold ReadBytes read
  split
  next f c bs e hx => exact ⟨rfl, rfl⟩

theorem addrBus_Close {σ : Type} (v : I2C σ) :
    (Close v).1.addr = v.addr ∧ (Close v).1.bus = v.bus := by
  unfold Close
  split
  next f e hx => exact ⟨rfl, rfl⟩

theorem addrBus_ReadRegBytesWithDelay {σ : Type} (d : Dev σ) (v : I2C σ) (reg n delay : Nat) :
    (ReadRegBytesWithDelay d v reg n delay).1.addr = v.addr ∧ (ReadRegBytesWithDelay d v reg n delay).1.bus = v.bus := by
  unfold ReadRegBytesWithDelay
  split
  · next v1 n1 e hx =>
      have h := addrBus_WriteBytes d v [reg]
      rw [hx] at h
      exact h
  · next v1 n1 hx =>
      have h1 := addrBus_WriteBytes d v [reg]
      rw [hx] at h1
      split
      · next v3 c bs e2 hy =>
          have h2 := addrBus_ReadBytes d (doSleep v1 delay) n
          rw [hy] at h2
          simp only [doSleep] at h2
          exact ⟨h2.1.trans h1.1, h2.2.trans h1.2⟩
      · next v3 c bs hy =>
          have h2 := addrBus_ReadBytes d (doSleep v1 delay) n
          rw [hy] at h2
          simp only [doSleep] at h2
          exact ⟨h2.1.trans h1.1, h2.2.trans h1.2⟩

theorem addrBus_ReadRegU8WithDelay {σ : Type} (d : Dev σ) (v : I2C σ) (reg delay : Nat) :
    (ReadRegU8WithDelay d v reg delay).1.addr = v.addr ∧ (ReadRegU8WithDelay d v reg delay).1.bus = v.bus := by
  unfold ReadRegU8WithDelay
  split
  · next v1 n1 e hx =>
      have h := addrBus_WriteBytes d v [reg]
      rw [hx] at h
      exact h
  · next v1 n1 hx =>
      have h1 := addrBus_WriteBytes d v [reg]
      rw [hx] at h1
      split
      · next v3 c bs e2 hy =>
          have h2 := addrBus_ReadBytes d (doSleep v1 delay) 1
          rw [hy] at h2
          simp only [doSleep] at h2
          exact ⟨h2.1.trans h1.1, h2.2.trans h1.2⟩
      · next v3 c bs hy =>
          have h2 := addrBus_ReadBytes d (doSleep v1 delay) 1
          rw [hy] at h2
          simp only [doSleep] at h2
          exact ⟨h2.1.trans h1.1, h2.2.trans h1.2⟩

theorem addrBus_ReadRegU16BEWithDelay {σ : Type} (d : Dev σ) (v : I2C σ) (reg delay : Nat) :
    (ReadRegU16BEWithDelay d v reg delay).1.addr = v.addr ∧ (ReadRegU16BEWithDelay d v reg delay).1.bus = v.bus := by
  unfold ReadRegU16BEWithDelay
  split
  · next v1 n1 e hx =>
      have h := addrBus_WriteBytes d v [reg]
      rw [hx] at h
      exact h
  · next v1 n1 hx =>
      have h1 := addrBus_WriteBytes d v [reg]
      rw [hx] at h1
      split
      · next v3 c bs e2 hy =>
          have h2 := addrBus_ReadBytes d (doSleep v1 delay) 2
          rw [hy] at h2
          simp only [doSleep] at h2
          exact ⟨h2.1.trans h1.1, h2.2.trans h1.2⟩
      · next v3 c bs hy =>
          have h2 := addrBus_ReadBytes d (doSleep v1 delay) 2
          rw [hy] at h2
          simp only [doSleep] at h2
          exact ⟨h2.1.trans h1.1, h2.2.trans h1.2⟩

theorem addrBus_ReadRegS16BEWithDelay {σ : Type} (d : Dev σ) (v : I2C σ) (reg delay : Nat) :
    (ReadRegS16BEWithDelay d v reg delay).1.addr = v.addr ∧ (ReadRegS16BEWithDelay d v reg delay).1.bus = v.bus := by
  unfold ReadRegS16BEWithDelay
  split
  · next v1 n1 e hx =>
      have h := addrBus_WriteBytes d v [reg]
      rw [hx] at h
      exact h
  · next v1 n1 hx =>
      have h1 := addrBus_WriteBytes d v [reg]
      rw [hx] at h1
      split
      · next v3 c bs e2 hy =>
          have h2 := addrBus_ReadBytes d (doSleep v1 delay) 2
          rw [hy] at h2
          simp only [doSleep] at h2
          exact ⟨h2.1.trans h1.1, h2.2.trans h1.2⟩
      · next v3 c bs hy =>
          have h2 := addrBus_ReadBytes d (doSleep v1 delay) 2
          rw [hy] at h2
          simp only [doSleep] at h2
          exact ⟨h2.1.trans h1.1, h2.2.trans h1.2⟩

theorem addrBus_ReadRegU16LEWithDelay {σ : Type} (d : Dev σ) (v : I2C σ) (reg delay : Nat) :
    (ReadRegU16LEWithDelay d v reg delay).1.addr = v.addr ∧ (ReadRegU16LEWithDelay d v reg delay).1.bus = v.bus := by
  unfold ReadRegU16LEWithDelay
  split
  · next v1 w e hx =>
      have h := addrBus_ReadRegU16BEWithDelay d v reg delay
      rw [hx] at h
      exact h
  · next v1 w hx =>
      have h := addrBus_ReadRegU16BEWithDelay d v reg delay
      rw [hx] at h
      exact h

theorem addrBus_ReadRegS16LEWithDelay {σ : Type} (d : Dev σ) (v : I2C σ) (reg delay : Nat) :
    (ReadRegS16LEWithDelay d v reg delay).1.addr = v.addr ∧ (ReadRegS16LEWithDelay d v reg delay).1.bus = v.bus := by
  unfold ReadRegS16LEWithDelay
  split
  · next v1 w e hx =>
      have h := addrBus_ReadRegS16BEWithDelay d v reg delay
      rw [hx] at h
      exact h
  · next v1 w hx =>
      have h := addrBus_ReadRegS16BEWithDelay d v reg delay
      rw [hx] at h
      exact h

theorem addrBus_WriteRegU8 {σ : Type} (d : Dev σ) (v : I2C σ) (reg b : Nat) :
    (WriteRegU8 d v reg b).1.addr = v.addr ∧ (WriteRegU8 d v reg b).1.bus = v.bus := by
  unfold WriteRegU8
  split
  next v1 n1 e hx =>
    have h := addrBus_WriteBytes d v [reg, b]
    rw [hx] at h
    exact h

theorem addrBus_WriteRegU16BE {σ : Type} (d : Dev σ) (v : I2C σ) (reg value : Nat) :
    (WriteRegU16BE d v reg value).1.addr = v.addr ∧ (WriteRegU16BE d v reg value).1.bus = v.bus := by
  unfold WriteRegU16BE
  split
  next v1 n1 e hx =>
    have h := addrBus_WriteBytes d v [reg, value / 256 % 256, value % 256]
    rw [hx] at h
    exact h

theorem addrBus_WriteRegS16BE {σ : Type} (d : Dev σ) (v : I2C σ) (reg : Nat) (sv : Int) :
    (WriteRegS16BE d v reg sv).1.addr = v.addr ∧ (WriteRegS16BE d v reg sv).1.bus = v.bus := by
  unfold WriteRegS16BE
  split
  next v1 n1 e hx =>
    have h := addrBus_WriteBytes d v [reg, (sv % 65536).toNat / 256 % 256, (sv % 256).toNat]
    rw [hx] at h
    exact h

theorem addrBus_WriteRegU16LE {σ : Type} (d : Dev σ) (v : I2C σ)
    (reg value : Nat) :
    (WriteRegU16LE d v reg value).1.addr = v.addr
    ∧ (WriteRegU16LE d v reg value).1.bus = v.bus := by
  unfold WriteRegU16LE
  exact addrBus_WriteRegU16BE d v reg _

theorem addrBus_WriteRegS16LE {σ : Type} (d : Dev σ) (v : I2C σ) (reg : Nat)
    (sv : Int) :
    (WriteRegS16LE d v reg sv).1.addr = v.addr
    ∧ (WriteRegS16LE d v reg sv).1.bus = v.bus := by
  unfold WriteRegS16LE
  exact addrBus_WriteRegS16BE d v reg _

/-- C9: `GetAddr`/`GetBus` are pure accessors returning exactly the
construction arguments of `NewI2C`, and no operation — raw or register
read/write, or `Close` — ever changes the stored device address or bus
identifier. -/
theorem addr_bus_immutable {σ : Type} (d : Dev σ) (a : Nat) (bus0 : Int)
    (f : FileSt σ) (v : I2C σ) (buf : List Nat) (reg n delay b value : Nat)
    (sv : Int) :
    GetAddr (NewI2C a bus0 f) = a
    ∧ GetBus (NewI2C a bus0 f) = bus0
    ∧ GetAddr v = v.addr
    ∧ GetBus v = v.bus
    ∧ ((WriteBytes d v buf).1.addr = v.addr ∧ (WriteBytes d v buf).1.bus = v.bus)
    ∧ ((ReadBytes d v n).1.addr = v.addr ∧ (ReadBytes d v n).1.bus = v.bus)
    ∧ ((Close v).1.addr = v.addr ∧ (Close v).1.bus = v.bus)
    ∧ ((ReadRegBytesWithDelay d v reg n delay).1.addr = v.addr
        ∧ (ReadRegBytesWithDelay d v reg n delay).1.bus = v.bus)
    ∧ ((ReadRegU8WithDelay d v reg delay).1.addr = v.addr
        ∧ (ReadRegU8WithDelay d v reg delay).1.bus = v.bus)
    ∧ ((ReadRegU16BEWithDelay d v reg delay).1.addr = v.addr
        ∧ (ReadRegU16BEWithDelay d v reg delay).1.bus = v.bus)
    ∧ ((ReadRegU16LEWithDelay d v reg delay).1.addr = v.addr
        ∧ (ReadRegU16LEWithDelay d v reg delay).1.bus = v.bus)
    ∧ ((ReadRegS16BEWithDelay d v reg delay).1.addr = v.addr
        ∧ (ReadRegS16BEWithDelay d v reg delay).1.bus = v.bus)
    ∧ ((ReadRegS16LEWithDelay d v reg delay).1.addr = v.addr
        ∧ (ReadRegS16LEWithDelay d v reg delay).1.bus = v.bus)
    ∧ ((WriteRegU8 d v reg b).1.addr = v.addr ∧ (WriteRegU8 d v reg b).1.bus = v.bus)
    ∧ ((WriteRegU16BE d v reg value).1.addr = v.addr
        ∧ (WriteRegU16BE d v reg value).1.bus = v.bus)
    ∧ ((WriteRegU16LE d v reg value).1.addr = v.addr
        ∧ (WriteRegU16LE d v reg value).1.bus = v.bus)
    ∧ ((WriteRegS16BE d v reg sv).1.addr = v.addr
        ∧ (WriteRegS16BE d v reg sv).1.bus = v.bus)
    ∧ ((WriteRegS16LE d v reg sv).1.addr = v.addr
        ∧ (WriteRegS16LE d v reg sv).1.bus = v.bus) :=
  ⟨rfl, rfl, rfl, rfl,
    addrBus_WriteBytes d v buf,
    addrBus_ReadBytes d v n,
    addrBus_Close v,
    addrBus_ReadRegBytesWithDelay d v reg n delay,
    addrBus_ReadRegU8WithDelay d v reg delay,
    addrBus_ReadRegU16BEWithDelay d v reg delay,
    addrBus_ReadRegU16LEWithDelay d v reg delay,
    addrBus_ReadRegS16BEWithDelay d v reg delay,
    addrBus_ReadRegS16LEWithDelay d v reg delay,
    addrBus_WriteRegU8 d v reg b,
    addrBus_WriteRegU16BE d v reg value,
    addrBus_WriteRegU16LE d v reg value,
    addrBus_WriteRegS16BE d v reg sv,
    addrBus_WriteRegS16LE d v reg sv⟩

/-- C10: the fixed-width register reads ignore the count the transport
reports (`c` is arbitrary, including 0): when the device signals success
while filling fewer bytes than requested, the operation returns a nil
error and assembles its result from the zero-initialized unread buffer
positions — a short successful read is indistinguishable from reading a
register whose unread bytes are 0. -/
theorem short_read_zero_fill (v : I2C Unit) (reg delay c b0 : Nat)
    (hopen : v.rc.closed = false) (h0 : b0 < 256) :
    (ReadRegU8WithDelay (shortDev c []) v reg delay).2 = (0, none)
    ∧ (ReadRegU16BEWithDelay (shortDev c []) v reg delay).2 = (0, none)
    ∧ (ReadRegU16BEWithDelay (shortDev c [b0]) v reg delay).2 = (b0 * 256, none)
    ∧ (ReadRegU16LEWithDelay (shortDev c [b0]) v reg delay).2 = (b0, none)
    ∧ (ReadRegS16BEWithDelay (shortDev c []) v reg delay).2 = ((0 : Int), none) := by
  refine ⟨?_, ?_, ?_, ?_, ?_⟩
  · simp [ReadRegU8WithDelay, WriteBytes, write, fwrite, ReadBytes, read, fread,
      doSleep, shortDev, fillBuf, hopen]
  · simp [ReadRegU16BEWithDelay, WriteBytes, write, fwrite, ReadBytes, read, fread,
      doSleep, shortDev, fillBuf, hopen]
  · simp [ReadRegU16BEWithDelay, WriteBytes, write, fwrite, ReadBytes, read, fread,
      doSleep, shortDev, fillBuf, hopen]
    omega
  · simp [ReadRegU16LEWithDelay, ReadRegU16BEWithDelay, WriteBytes, write, fwrite,
      ReadBytes, read, fread, doSleep, shortDev, fillBuf, hopen]
    omega
  · simp [ReadRegS16BEWithDelay, WriteBytes, write, fwrite, ReadBytes, read, fread,
      doSleep, shortDev, fillBuf, hopen, wrap16]

/-- C10 witness: with a device that reports success and count 0 while
filling nothing, the byte read returns `(0, nil)`; filling a single byte
`7` of the two requested, the big-endian word read returns `0x0700` and
the little-endian word read returns `7`, all with nil error. -/
theorem short_read_zero_fill_witness :
    (ReadRegU8WithDelay (shortDev 0 []) (mkChan 16 1 ()) 5 0).2 = (0, none)
    ∧ (ReadRegU16BEWithDelay (shortDev 0 [7]) (mkChan 16 1 ()) 5 0).2 = (1792, none)
    ∧ (ReadRegU16LEWithDelay (shortDev 0 [7]) (mkChan 16 1 ()) 5 0).2 = (7, none) := by
  have h := short_read_zero_fill (mkChan 16 1 ()) 5 0 0 7 rfl (by decide)
  exact ⟨h.1, h.2.2.1, h.2.2.2.1⟩

end i2c
